import Mathlib

/-!
Verification of the terminal_sync command-logging core against its source
(`src/terminal_sync/log_entry.py`, `cli.py`, `api.py`, `plugins/`).

Python values carried through dictionaries are embedded as `PyVal`; `datetime`
objects are embedded as abstract integer tick counts; Python dictionaries are
embedded as association lists whose lookup takes the first matching key.
-/

/-- Decidable equality for `Except`, used to evaluate the models on concrete
inputs. -/
instance exceptDecEq {ε α : Type} [DecidableEq ε] [DecidableEq α] :
    DecidableEq (Except ε α) := fun x y =>
  match x, y with
  | .error a, .error b =>
    if h : a = b then .isTrue (by subst h; rfl)
    else .isFalse (by intro hc; injection hc with h2; exact h h2)
  | .error _, .ok _ => .isFalse fun hc => Except.noConfusion hc
  | .ok _, .error _ => .isFalse fun hc => Except.noConfusion hc
  | .ok a, .ok b =>
    if h : a = b then .isTrue (by subst h; rfl)
    else .isFalse (by intro hc; injection hc with h2; exact h h2)

/-- A dynamically-typed Python value as it appears in the argument
dictionaries passed around by terminal_sync. `vTime` is a `datetime` object
(an abstract tick count); `vOther` stands for any other object — for example
the dict that `run` passes positionally to `Entry(args)`, or the `property`
objects that end up as the dataclass defaults of the property-backed fields —
which fails every `isinstance` check the setters perform and is truthy. -/
inductive PyVal where
  | vNone
  | vBool (b : Bool)
  | vInt (n : Int)
  | vTime (t : Int)
  | vStr (s : String)
  | vOther
deriving DecidableEq

open PyVal

/-- Python truthiness (`bool(v)`): `None`, `False`, `0` and `""` are falsy. -/
def pyTruthy : PyVal → Bool
  | vNone => false
  | vBool b => b
  | vInt n => n ≠ 0
  | vStr s => s ≠ ""
  | vTime _ => true
  | vOther => true

/-- The whitespace characters stripped by Python's `str.strip()` (the ASCII
ones, which are the only ones occurring in this code base). -/
def isPyWs (c : Char) : Bool :=
  c = Char.ofNat 32 ∨ c = Char.ofNat 9 ∨ c = Char.ofNat 10 ∨ c = Char.ofNat 13 ∨
  c = Char.ofNat 11 ∨ c = Char.ofNat 12

/-- Python `str.strip()`: drop leading and trailing whitespace. -/
def pyStrip (s : String) : String :=
  ⟨((s.data.dropWhile isPyWs).reverse.dropWhile isPyWs).reverse⟩

/-- Helper for `pySplit`: does `pre` occur at the head of `l`, and if so what
remains after it? -/
def dropPrefixChars : List Char → List Char → Option (List Char)
  | [], l => some l
  | _ :: _, [] => none
  | p :: ps, c :: cs => if p = c then dropPrefixChars ps cs else none

/-- Core of `pySplit`, structurally recursive on the scanned characters.
`skip` counts separator characters still to be consumed after a cut, `cur` is
the current piece (reversed), `acc` the finished pieces (reversed). -/
def pySplitGo (sep : List Char) :
    List Char → Nat → List Char → List (List Char) → List (List Char)
  | [], _, cur, acc => (cur.reverse :: acc).reverse
  | _ :: cs, skip + 1, cur, acc => pySplitGo sep cs skip cur acc
  | c :: cs, 0, cur, acc =>
    match dropPrefixChars sep (c :: cs) with
    | some _ =>
      -- a separator occurrence starts here; cut and skip over it
      pySplitGo sep cs (sep.length - 1) [] (cur.reverse :: acc)
    | none => pySplitGo sep cs 0 (c :: cur) acc

/-- Python `s.split(sep)` for a non-empty separator: split at every
non-overlapping occurrence, scanning left to right. Python raises
`ValueError` on an empty separator; this model returns `[s]` in that case,
and the only caller (`descriptionProcess`) turns that single-element list
into the same `ValueError` outcome through its two-element match. -/
def pySplit (s sep : String) : List String :=
  if sep = "" then [s]
  else (pySplitGo sep.data s.data 0 [] []).map fun cs => ⟨cs⟩

/-- Python's substring test `sub in s`: `""` is contained in everything, and a
non-empty separator occurs in `s` exactly when splitting on it yields more
than one piece. -/
def strContainsSub (s sub : String) : Bool :=
  if sub = "" then true else (pySplit s sub).length ≠ 1

/-- Python `s.startswith(pre)`. -/
def pyStartsWith (s pre : String) : Bool :=
  pre.data.isPrefixOf s.data

/-- The context a construction runs in: `now` is the clock at the time of
the call being modelled (the value `datetime.utcnow()` returns inside a
setter); `localHost` is the `"<hostname> (<ip>)"` string `_get_local_host`
produces. -/
structure Ctx where
  now : Int
  localHost : String
deriving DecidableEq

/-- The in-memory state of a `terminal_sync.log_entry.Entry`. `command` and
`description` hold the values of the private `_command`/`_description` slots
(always strings, by the setters); `start_time` and `end_time` hold
`_start_time`/`_end_time` (always datetimes, by the setters). The remaining
attributes are plain dataclass fields and hold whatever value was assigned. -/
structure Entry where
  command : String
  comments : PyVal
  description : String
  destination_host : PyVal
  start_time : Int
  end_time : Int
  gw_id : PyVal
  operator : PyVal
  oplog_id : PyVal
  output : PyVal
  source_host : PyVal
  tool : PyVal
  user_context : PyVal
  uuid : PyVal
deriving DecidableEq

/-- The `command`/`description` setters: strip whitespace when the value is a
`str`, store `""` otherwise (the `isinstance` guard). -/
def setStrVal : PyVal → String
  | vStr s => pyStrip s
  | _ => ""

/-- The `start_time` setter body: keep a `datetime`, otherwise fall back to
`datetime.utcnow()`. -/
def setTimeVal (v : PyVal) (now : Int) : Int :=
  match v with
  | vTime t => t
  | _ => now

/-- The `end_time` setter body: normalize to a datetime, then coerce any value
earlier than the current `_start_time` up to `_start_time`. -/
def setEndVal (start : Int) (v : PyVal) (now : Int) : Int :=
  let t := setTimeVal v now
  if t < start then start else t

/-- The list `Entry.__dataclass_fields__`, in declaration order. -/
def entryFieldNames : List String :=
  ["command", "comments", "description", "destination_host", "start_time",
   "end_time", "gw_id", "operator", "oplog_id", "output", "source_host",
   "tool", "user_context", "uuid"]

/-- The fields `Entry.update` refuses to overwrite. -/
def protectedFields : List String := ["oplog_id", "start_time", "uuid"]

/-- The dataclass `__init__` plus `__post_init__`, driven by a keyword
dictionary. Fields are assigned in declaration order, so `_start_time` exists
before the `end_time` setter compares against it. A missing key takes the
field's default; for the four property-backed fields (`command`,
`description`, `start_time`, `end_time`) the `property` objects defined later
in the class body shadow the annotated class-level defaults, so the dataclass
default is the property object itself (see the AttributeError note at
`log_entry.py:101`-104) — modelled as `vOther`, it fails the setter's
`isinstance` check, giving `""` for the two strings and the
construction-time clock `ctx.now` for the two timestamps. `__post_init__`
replaces a falsy `source_host` with the local host string. -/
def entryOfDict (args : List (String × PyVal)) (ctx : Ctx) : Entry :=
  let command := setStrVal ((args.lookup "command").getD vOther)
  let comments := (args.lookup "comments").getD (vStr "Logged by terminal_sync")
  let description := setStrVal ((args.lookup "description").getD vOther)
  let destination_host := (args.lookup "destination_host").getD vNone
  let start_time := setTimeVal ((args.lookup "start_time").getD vOther) ctx.now
  let end_time := setEndVal start_time ((args.lookup "end_time").getD vOther) ctx.now
  let gw_id := (args.lookup "gw_id").getD vNone
  let operator := (args.lookup "operator").getD vNone
  let oplog_id := (args.lookup "oplog_id").getD (vInt 0)
  let output := (args.lookup "output").getD (vStr "")
  let source_host0 := (args.lookup "source_host").getD vNone
  let tool := (args.lookup "tool").getD vNone
  let user_context := (args.lookup "user_context").getD vNone
  let uuid := (args.lookup "uuid").getD (vStr "")
  let source_host := if pyTruthy source_host0 then source_host0 else vStr ctx.localHost
  ⟨command, comments, description, destination_host, start_time, end_time,
   gw_id, operator, oplog_id, output, source_host, tool, user_context, uuid⟩

/-- Models `Entry.from_dict`: keep only keys that are dataclass fields, then build. -/
def fromDict (args : List (String × PyVal)) (ctx : Ctx) : Entry :=
  entryOfDict (args.filter fun kv => entryFieldNames.contains kv.1) ctx

/-- Models `setattr(self, attr, value)` on an `Entry`: the four property-backed
attributes go through their setters, the rest are stored as given. -/
def setAttr (e : Entry) (k : String) (v : PyVal) (now : Int) : Entry :=
  if k = "command" then { e with command := setStrVal v }
  else if k = "comments" then { e with comments := v }
  else if k = "description" then { e with description := setStrVal v }
  else if k = "destination_host" then { e with destination_host := v }
  else if k = "start_time" then { e with start_time := setTimeVal v now }
  else if k = "end_time" then { e with end_time := setEndVal e.start_time v now }
  else if k = "gw_id" then { e with gw_id := v }
  else if k = "operator" then { e with operator := v }
  else if k = "oplog_id" then { e with oplog_id := v }
  else if k = "output" then { e with output := v }
  else if k = "source_host" then { e with source_host := v }
  else if k = "tool" then { e with tool := v }
  else if k = "user_context" then { e with user_context := v }
  else if k = "uuid" then { e with uuid := v }
  else e

/-- One iteration of the loop in `Entry.update`: skip `None` values, names
that are not dataclass fields, and protected fields; otherwise `setattr`. -/
def updateStep (now : Int) (e : Entry) (kv : String × PyVal) : Entry :=
  if kv.2 ≠ vNone ∧ kv.1 ∈ entryFieldNames ∧ kv.1 ∉ protectedFields then
    setAttr e kv.1 kv.2 now
  else e

/-- The state change performed by `Entry.update(args)`. -/
def Entry.update (e : Entry) (args : List (String × PyVal)) (now : Int) : Entry :=
  args.foldl (updateStep now) e

/-- The full effect of evaluating the Python expression `e.update(args)`:
the method mutates `e` in place and has no `return` statement, so the call
itself evaluates to `None`. First component: the call's value; second: the
mutated state. -/
def updateCall (e : Entry) (args : List (String × PyVal)) (now : Int) :
    Option Entry × Entry :=
  (none, e.update args now)

/-- Models `datetime.strftime` (`"%F %H:%M:%S"`). Timestamps are abstract
tick counts in this embedding, so the text is rendered from the tick count;
nothing downstream depends on the layout, only on the result being a `str`. -/
def fmtTime (t : Int) : String := toString t

/-- Models `dict(entry)` / `asdict`: iterate the dataclass fields in declaration
order reading through the property getters, so `start_time` and `end_time`
appear as formatted strings. -/
def entryDict (e : Entry) : List (String × PyVal) :=
  [("command", vStr e.command),
   ("comments", e.comments),
   ("description", vStr e.description),
   ("destination_host", e.destination_host),
   ("start_time", vStr (fmtTime e.start_time)),
   ("end_time", vStr (fmtTime e.end_time)),
   ("gw_id", e.gw_id),
   ("operator", e.operator),
   ("oplog_id", e.oplog_id),
   ("output", e.output),
   ("source_host", e.source_host),
   ("tool", e.tool),
   ("user_context", e.user_context),
   ("uuid", e.uuid)]

/-- The attribute-name to REST/GraphQL field-name map of `Entry.gw_fields`. -/
def gwName (k : String) : String :=
  if k = "destination_host" then "dest_ip"
  else if k = "end_time" then "end_date"
  else if k = "operator" then "operator_name"
  else if k = "source_host" then "source_ip"
  else if k = "start_time" then "start_date"
  else k

/-- Models `Entry.gw_fields()`: the non-`None` attributes with `gw_id` and `uuid`
omitted, under the remote field names. -/
def gwFields (e : Entry) : List (String × PyVal) :=
  (entryDict e).filterMap fun kv =>
    if kv.2 = vNone ∨ kv.1 = "gw_id" ∨ kv.1 = "uuid" then none
    else some (gwName kv.1, kv.2)

/-- The JSON dictionary `cli.save_log` writes: `json.dump(dict(entry), ...)`,
i.e. every field (null-valued ones included) under internal names. -/
def cliSaveLogJson (e : Entry) : List (String × PyVal) := entryDict e

/-- The JSON dictionary `api.save_log` writes:
`json.dump(entry.gw_fields(), ...)`, i.e. non-null fields under the
remote-translated names. -/
def apiSaveLogJson (e : Entry) : List (String × PyVal) := gwFields e

/-! ### `shlex.split` (POSIX mode), used by the `_nolog` and `proxychains` plugins -/

/-- The single-quote character. -/
def sqChar : Char := Char.ofNat 39

/-- The double-quote character. -/
def dqChar : Char := Char.ofNat 34

/-- The backslash (escape) character. -/
def escChar : Char := Char.ofNat 92

/-- The characters of `shlex.whitespace`: space, tab, carriage return, newline. -/
def isShWs (c : Char) : Bool :=
  c = Char.ofNat 32 ∨ c = Char.ofNat 9 ∨ c = Char.ofNat 13 ∨ c = Char.ofNat 10

/-- Lexer mode for `shlexSplit`: between tokens, inside a token, inside
single or double quotes, or after an escape character (in a token or inside
double quotes). -/
inductive ShMode where
  | between
  | word
  | squote
  | dquote
  | escWord
  | escDquote
deriving DecidableEq

/-- Models `shlex.split(s)` with POSIX rules, one character at a time. `cur` is the
token being built, `acc` the finished tokens (reversed). Whitespace separates
tokens; single quotes are fully literal; inside double quotes a backslash
escapes only the double quote and the backslash itself and is otherwise kept;
outside quotes a backslash makes the next character literal. An unterminated
quote ("No closing quotation") or trailing escape ("No escaped character")
raises `ValueError`. -/
def shlexGo : List Char → ShMode → String → List String → Except Unit (List String)
  | [], .between, _, acc => .ok acc.reverse
  | [], .word, cur, acc => .ok (cur :: acc).reverse
  | [], .squote, _, _ => .error ()
  | [], .dquote, _, _ => .error ()
  | [], .escWord, _, _ => .error ()
  | [], .escDquote, _, _ => .error ()
  | c :: cs, .between, cur, acc =>
    if isShWs c then shlexGo cs .between cur acc
    else if c = sqChar then shlexGo cs .squote "" acc
    else if c = dqChar then shlexGo cs .dquote "" acc
    else if c = escChar then shlexGo cs .escWord "" acc
    else shlexGo cs .word (String.singleton c) acc
  | c :: cs, .word, cur, acc =>
    if isShWs c then shlexGo cs .between "" (cur :: acc)
    else if c = sqChar then shlexGo cs .squote cur acc
    else if c = dqChar then shlexGo cs .dquote cur acc
    else if c = escChar then shlexGo cs .escWord cur acc
    else shlexGo cs .word (cur.push c) acc
  | c :: cs, .squote, cur, acc =>
    if c = sqChar then shlexGo cs .word cur acc
    else shlexGo cs .squote (cur.push c) acc
  | c :: cs, .dquote, cur, acc =>
    if c = dqChar then shlexGo cs .word cur acc
    else if c = escChar then shlexGo cs .escDquote cur acc
    else shlexGo cs .dquote (cur.push c) acc
  | c :: cs, .escWord, cur, acc => shlexGo cs .word (cur.push c) acc
  | c :: cs, .escDquote, cur, acc =>
    if c = dqChar ∨ c = escChar then shlexGo cs .dquote (cur.push c) acc
    else shlexGo cs .dquote ((cur.push escChar).push c) acc

/-- Models `shlex.split(s)`; `Except.error` is the `ValueError` raised on bad
quoting. -/
def shlexSplit (s : String) : Except Unit (List String) :=
  shlexGo s.data .between "" []

/-! ### The plugin chain (`cli.process_entry` and `plugins/`) -/

/-- The Python exceptions the modelled control flow distinguishes:
the package's `NoLogException` veto signal, `ValueError`, `TypeError`,
`AttributeError`, and `UnboundLocalError`. -/
inductive PyErr where
  | noLogExc
  | valueErr
  | typeErr
  | attributeErr
  | unboundErr
deriving DecidableEq

/-- The configuration attributes read by the modelled code paths, with the
defaults from `config.py`. -/
structure Config where
  termsync_desc_token : String := "#desc"
  termsync_nolog_token : String := "#nolog"
  termsync_enabled : Bool := true
  termsync_save_all_local : Bool := false
  gw_url : String := ""
  gw_api_key_graphql : String := ""
  gw_api_key_rest : String := ""
deriving DecidableEq

/-- Models `plugins._description.process`: when the delimiter token occurs in a
non-empty command, `entry.command.split(desc_token)` is unpacked into
`(entry.command, entry.description)` — which assigns through the stripping
setters when the split yields exactly two pieces, and raises `ValueError`
otherwise (more than one occurrence, or an empty token); without the token
the plugin declines with `None`. -/
def descriptionProcess (cfg : Config) (e : Entry) : Except PyErr (Option Entry) :=
  if e.command ≠ "" ∧ strContainsSub e.command cfg.termsync_desc_token then
    match pySplit e.command cfg.termsync_desc_token with
    | [l, r] => .ok (some { e with command := pyStrip l, description := pyStrip r })
    | _ => .error .valueErr
  else .ok none

/-- Models `plugins._manual_update.process`: forward the entry when `gw_id` is
truthy, decline otherwise. -/
def manualUpdateProcess (e : Entry) : Except PyErr (Option Entry) :=
  .ok (if pyTruthy e.gw_id then some e else none)

/-- Models `plugins._nolog.process`: shell-tokenize the command; raise
`NoLogException` when any token equals the configured no-log marker,
otherwise return the entry. A `ValueError` from `shlex.split` propagates. -/
def nologProcess (cfg : Config) (e : Entry) : Except PyErr (Option Entry) :=
  match shlexSplit e.command with
  | .error _ => .error .valueErr
  | .ok toks =>
    if toks.contains cfg.termsync_nolog_token then .error .noLogExc
    else .ok (some e)

/-- Models the first loop of `plugins.proxychains.get_tool_from_proxychains`: advance past
the first phrase containing `"proxychains"`, returning the remaining phrases
(empty when no phrase matches, which makes the caller return `None`). -/
def pcAfterLaunch : List String → List String
  | [] => []
  | p :: rest => if strContainsSub p "proxychains" then rest else pcAfterLaunch rest

/-- Models the second loop of `plugins.proxychains.get_tool_from_proxychains`: skip
recognized proxychains flags (`-q`; `-f` also consumes its argument); an
unrecognized flag raises (caught by the function, yielding `None`). -/
def pcSkipOpts : List String → Except Unit (List String)
  | [] => .ok []
  | p :: rest =>
    if pyStartsWith p "-" then
      if p = "-q" then pcSkipOpts rest
      else if p = "-f" then
        match rest with
        | [] => .ok []  -- `i` jumps past the end; the caller finds no phrase left
        | _ :: rest2 => pcSkipOpts rest2
      else .error ()
    else .ok (p :: rest)

/-- Models `plugins.proxychains.get_tool_from_proxychains`: all exceptions (bad
quoting, unknown flag) are caught inside and become `None`; otherwise the
first phrase after the launcher and its flags is the tool name. -/
def getToolFromProxychains (command : String) : Option String :=
  match shlexSplit command with
  | .error _ => none
  | .ok phrases =>
    match pcSkipOpts (pcAfterLaunch phrases) with
    | .error _ => none
    | .ok [] => none
    | .ok (t :: _) => some t

/-- Models `plugins.proxychains.match`: substring test for the trigger tokens
(trailing spaces intended, see the plugin). -/
def proxychainsMatch (command : String) : Bool :=
  strContainsSub command "proxychains " || strContainsSub command "proxychains4 "

/-- Models `plugins.proxychains.process`: decline unless a trigger token occurs and
a tool name can be parsed; otherwise set `tool`. -/
def proxychainsProcess (e : Entry) : Except PyErr (Option Entry) :=
  if !proxychainsMatch e.command then .ok none
  else
    match getToolFromProxychains e.command with
    | none => .ok none
    | some t => .ok (some { e with tool := vStr t })

/-- The loop body sequence of `cli.process_entry`: at each plugin, `entry` is
re-bound to the accumulated `new_entry` when one exists, the plugin runs on
it (exceptions propagate), and `new_entry` becomes the plugin's result unless
that result is `None` (Python `or`), preserving earlier enrichment. -/
def processEntryAux :
    List (Entry → Except PyErr (Option Entry)) → Entry → Option Entry →
    Except PyErr (Option Entry)
  | [], _, acc => .ok acc
  | u :: rest, e, acc =>
    let e' := acc.getD e
    match u e' with
    | .error err => .error err
    | .ok r => processEntryAux rest e' (match r with | some x => some x | none => acc)

/-- Models `cli.process_entry`: fold the plugins over the entry; a `NoLogException`
from any plugin is caught and turns the result into `None`; any other
exception propagates to the caller. -/
def processEntry (units : List (Entry → Except PyErr (Option Entry))) (e : Entry) :
    Except PyErr (Option Entry) :=
  match processEntryAux units e none with
  | .error .noLogExc => .ok none
  | .error err => .error err
  | .ok r => .ok r

/-- A chain unit that cannot raise, for stating the fold law. -/
def pureUnit (u : Entry → Option Entry) : Entry → Except PyErr (Option Entry) :=
  fun e => .ok (u e)

/-- The plugins `cli.load_plugins` discovers, in sorted file-name order
(`_description`, `_manual_update`, `_nolog`, `proxychains`); the glob order
is filesystem-dependent, and none of the proved statements depend on it. -/
def cliPlugins (cfg : Config) : List (Entry → Except PyErr (Option Entry)) :=
  [descriptionProcess cfg, manualUpdateProcess, nologProcess cfg, proxychainsProcess]

/-! ### The CLI coordinator (`cli.get_entry`, `cli.log_command`, `cli.run`) -/

/-- Models `dict(base, **ext)`: `base`'s entries with `ext` values overriding, then
`ext`'s new keys appended. -/
def dictMerge (base ext : List (String × PyVal)) : List (String × PyVal) :=
  (base.map fun kv => (kv.1, (ext.lookup kv.1).getD kv.2)) ++
    ext.filter fun kv => (base.lookup kv.1).isNone

/-- Models `cli.get_entry`: build `attrs` from the config dictionary overridden by
the truthy CLI arguments, construct an entry via `Entry.from_dict`, then
consult the cache directory for a file named
`f"{entry.oplog_id}_*_{entry.uuid}.json"`. `cached` is the content of the
first such file when one exists (the file-system parameter of the model).
With no cached file the fresh entry is returned with `True`; with a cached
file the function returns the value of
`Entry.from_dict(load(in_file)).update(attrs)` — which is `None`, since
`update` mutates in place and returns `None` — paired with `False`. -/
def getEntry (cfgAttrs args : List (String × PyVal))
    (cached : Option (List (String × PyVal))) (ctx : Ctx) : Option Entry × Bool :=
  let attrs := dictMerge cfgAttrs (args.filter fun kv => pyTruthy kv.2)
  match cached with
  | none => (some (fromDict attrs ctx), true)
  | some stored => ((updateCall (fromDict stored ctx) attrs ctx.now).1, false)

/-- The exception classes `cli.log_command` has handlers for; `otherError`
stands for any other `Exception` (validation errors, "Not found.", ...),
matched by the final catch-all handler. -/
inductive CliExc where
  | timeoutError
  | transportQueryError
  | graphQLError
  | otherError
deriving DecidableEq

/-- The behavior of the single remote call `gw_client.log(entry)` in the
delivery attempt: it returns an optional entry id, or raises. -/
inductive RemoteResult where
  | ok (gwId : Option Int)
  | raise (exc : CliExc)
deriving DecidableEq

/-- Whether the remote call raises. -/
def RemoteResult.isExc : RemoteResult → Bool
  | .ok _ => false
  | .raise _ => true

/-- What a `cli.log_command` run did. `attempts` counts remote delivery
calls; `savedLocally`/`removedCache` record the `finally` clause's action on
the Local Archive. -/
structure LogOutcome where
  saved : Bool
  savedLocally : Bool
  removedCache : Bool
  attempts : Nat
  entry : Entry
deriving DecidableEq

/-- Models `cli.log_command`: when a Ghostwriter URL and an API key are configured,
make one delivery attempt; a returned id marks the entry saved and records
the id. The `except` ladder (`TimeoutError`, `TransportQueryError`,
`GraphQLError`, catch-all `Exception`) converts every raised exception into
"not saved", so the function's result is `.ok` for every `RemoteResult`; the
`finally` clause saves locally when not saved (or always, per configuration),
saves new entries for later completion, and otherwise removes the cached
file. -/
def logCommand (cfg : Config) (e : Entry) (newEntry : Bool)
    (remote : RemoteResult) : Except CliExc LogOutcome :=
  let configured := cfg.gw_url ≠ "" ∧ (cfg.gw_api_key_graphql ≠ "" ∨ cfg.gw_api_key_rest ≠ "")
  let attempts : Nat := if configured then 1 else 0
  let tryResult : Except CliExc (Bool × Entry) :=
    if configured then
      match remote with
      | .ok (some gid) => .ok (true, { e with gw_id := vInt gid })
      | .ok none => .ok (false, e)
      | .raise exc => .error exc
    else .ok (false, e)
  let handled : Bool × Entry :=
    match tryResult with
    | .ok r => r
    | .error .timeoutError => (false, e)
    | .error .transportQueryError => (false, e)
    | .error .graphQLError => (false, e)
    | .error .otherError => (false, e)
  -- finally clause
  if cfg.termsync_save_all_local || !handled.1 then
    .ok ⟨handled.1, true, false, attempts, handled.2⟩
  else if newEntry then
    .ok ⟨handled.1, true, false, attempts, handled.2⟩
  else
    .ok ⟨handled.1, false, true, attempts, handled.2⟩

/-- The observable outcome of `cli.run`. -/
inductive RunOutcome where
  | notLogged
  | logs (e : Entry) (newEntry : Bool)
  | raises (err : PyErr)
deriving DecidableEq

/-- Models `cli.run(args)`: the no-log marker substring pre-check (`token in
command`, raising `TypeError` unless the command is a string), the
empty-command check, entry construction — `Entry(args)` in the manual-update
branch passes the whole dict positionally as `command`, a non-`str` value —
or `get_entry`, then `process_entry`, whose falsy result (`None`, from a
plugin veto, no matching plugin, or the `(None, False)` cached-entry path
handing `None` to plugins, where attribute access raises
`AttributeError`) skips `log_command`. When logging is disabled and no
`gw_id` is given, `entry` is never assigned and `process_entry(entry)`
raises `UnboundLocalError`. -/
def runModel (cfg : Config) (cfgAttrs args : List (String × PyVal))
    (cached : Option (List (String × PyVal))) (ctx : Ctx) : RunOutcome :=
  let command := (args.lookup "command").getD vNone
  let gwId := (args.lookup "gw_id").getD vNone
  match command with
  | vStr c =>
    if strContainsSub c cfg.termsync_nolog_token then .notLogged
    else if c = "" ∧ ¬pyTruthy gwId then .notLogged
    else
      let pre : Except PyErr (Option Entry × Bool) :=
        if pyTruthy gwId then .ok (some (entryOfDict [("command", vOther)] ctx), false)
        else if cfg.termsync_enabled then .ok (getEntry cfgAttrs args cached ctx)
        else .error .unboundErr
      match pre with
      | .error err => .raises err
      | .ok (entOpt, newE) =>
        let processed : Except PyErr (Option Entry) :=
          match entOpt with
          | none => .error .attributeErr
          | some e => processEntry (cliPlugins cfg) e
        match processed with
        | .error err => .raises err
        | .ok none => .notLogged
        | .ok (some e') => .logs e' newE
  | _ => .raises .typeErr


/-! ### Invariant and frame lemmas for `Entry` -/

/-- The time-ordering invariant of the Record model. -/
def startLE (e : Entry) : Prop := e.start_time ≤ e.end_time

theorem setEndVal_ge (start : Int) (v : PyVal) (now : Int) :
    start ≤ setEndVal start v now := by
  unfold setEndVal
  dsimp only
  split <;> omega

theorem setAttr_unprotected (e : Entry) (k : String) (v : PyVal) (now : Int)
    (hk1 : k ≠ "start_time") (hk2 : k ≠ "uuid") (hk3 : k ≠ "oplog_id") :
    (setAttr e k v now).start_time = e.start_time ∧
    (setAttr e k v now).uuid = e.uuid ∧
    (setAttr e k v now).oplog_id = e.oplog_id ∧
    ((setAttr e k v now).end_time = e.end_time ∨
      (setAttr e k v now).end_time = setEndVal e.start_time v now) := by
  unfold setAttr
  by_cases h1 : k = "command"
  · rw [if_pos h1]; exact ⟨rfl, rfl, rfl, Or.inl rfl⟩
  rw [if_neg h1]
  by_cases h2 : k = "comments"
  · rw [if_pos h2]; exact ⟨rfl, rfl, rfl, Or.inl rfl⟩
  rw [if_neg h2]
  by_cases h3 : k = "description"
  · rw [if_pos h3]; exact ⟨rfl, rfl, rfl, Or.inl rfl⟩
  rw [if_neg h3]
  by_cases h4 : k = "destination_host"
  · rw [if_pos h4]; exact ⟨rfl, rfl, rfl, Or.inl rfl⟩
  rw [if_neg h4]
  rw [if_neg hk1]
  by_cases h6 : k = "end_time"
  · rw [if_pos h6]; exact ⟨rfl, rfl, rfl, Or.inr rfl⟩
  rw [if_neg h6]
  by_cases h7 : k = "gw_id"
  · rw [if_pos h7]; exact ⟨rfl, rfl, rfl, Or.inl rfl⟩
  rw [if_neg h7]
  by_cases h8 : k = "operator"
  · rw [if_pos h8]; exact ⟨rfl, rfl, rfl, Or.inl rfl⟩
  rw [if_neg h8]
  rw [if_neg hk3]
  by_cases h10 : k = "output"
  · rw [if_pos h10]; exact ⟨rfl, rfl, rfl, Or.inl rfl⟩
  rw [if_neg h10]
  by_cases h11 : k = "source_host"
  · rw [if_pos h11]; exact ⟨rfl, rfl, rfl, Or.inl rfl⟩
  rw [if_neg h11]
  by_cases h12 : k = "tool"
  · rw [if_pos h12]; exact ⟨rfl, rfl, rfl, Or.inl rfl⟩
  rw [if_neg h12]
  by_cases h13 : k = "user_context"
  · rw [if_pos h13]; exact ⟨rfl, rfl, rfl, Or.inl rfl⟩
  rw [if_neg h13]
  rw [if_neg hk2]
  exact ⟨rfl, rfl, rfl, Or.inl rfl⟩

theorem notMem_protected (k : String) (hp : k ∉ protectedFields) :
    k ≠ "start_time" ∧ k ≠ "uuid" ∧ k ≠ "oplog_id" := by
  refine ⟨fun h => hp ?_, fun h => hp ?_, fun h => hp ?_⟩ <;>
    subst h <;> decide

theorem updateStep_frame (now : Int) (e : Entry) (kv : String × PyVal) :
    (updateStep now e kv).start_time = e.start_time ∧
    (updateStep now e kv).uuid = e.uuid ∧
    (updateStep now e kv).oplog_id = e.oplog_id ∧
    ((updateStep now e kv).end_time = e.end_time ∨
      (updateStep now e kv).end_time = setEndVal e.start_time kv.2 now) := by
  unfold updateStep
  split
  · next hg =>
    obtain ⟨hk1, hk2, hk3⟩ := notMem_protected kv.1 hg.2.2
    exact setAttr_unprotected e kv.1 kv.2 now hk1 hk2 hk3
  · exact ⟨rfl, rfl, rfl, Or.inl rfl⟩

theorem startLE_updateStep (now : Int) (e : Entry) (kv : String × PyVal)
    (h : startLE e) : startLE (updateStep now e kv) := by
  obtain ⟨hs, -, -, hend⟩ := updateStep_frame now e kv
  unfold startLE at *
  rcases hend with he | he <;> rw [hs, he]
  · exact h
  · exact setEndVal_ge _ _ _

theorem startLE_update (args : List (String × PyVal)) (e : Entry) (now : Int)
    (h : startLE e) : startLE (e.update args now) := by
  induction args generalizing e with
  | nil => exact h
  | cons kv rest ih =>
    exact ih (updateStep now e kv) (startLE_updateStep now e kv h)

theorem startLE_entryOfDict (args : List (String × PyVal)) (ctx : Ctx) :
    startLE (entryOfDict args ctx) := by
  unfold startLE entryOfDict
  dsimp only
  exact setEndVal_ge _ _ _

/-- A sequence of `update` calls (argument dictionary and clock of each). -/
def applyUpdates (e : Entry) (upds : List (List (String × PyVal) × Int)) : Entry :=
  upds.foldl (fun acc p => acc.update p.1 p.2) e

theorem startLE_applyUpdates (upds : List (List (String × PyVal) × Int))
    (e : Entry) (h : startLE e) : startLE (applyUpdates e upds) := by
  induction upds generalizing e with
  | nil => exact h
  | cons p rest ih =>
    exact ih (e.update p.1 p.2) (startLE_update p.1 e p.2 h)

theorem update_single (e : Entry) (k : String) (v : PyVal) (now : Int) :
    Entry.update e [(k, v)] now = updateStep now e (k, v) := rfl

/-- Claim C1: for every Entry, after construction and after every sequence of
`update()` calls, the stored `end_time` is at least the stored `start_time`;
and an `end_time` assignment through `update` is coerced up to the current
`start_time` (the stored value is the max of the two), regardless of input
order. -/
theorem c1_end_time_never_before_start_time :
    (∀ args ctx, (entryOfDict args ctx).start_time ≤ (entryOfDict args ctx).end_time) ∧
    (∀ args ctx upds,
      (applyUpdates (entryOfDict args ctx) upds).start_time ≤
        (applyUpdates (entryOfDict args ctx) upds).end_time) ∧
    (∀ e t now,
      (Entry.update e [("end_time", vTime t)] now).end_time = max e.start_time t) := by
  refine ⟨fun args ctx => startLE_entryOfDict args ctx,
    fun args ctx upds => startLE_applyUpdates upds _ (startLE_entryOfDict args ctx),
    fun e t now => ?_⟩
  have hred : Entry.update e [("end_time", vTime t)] now
      = { e with end_time := setEndVal e.start_time (vTime t) now } := rfl
  rw [hred]
  show setEndVal e.start_time (vTime t) now = max e.start_time t
  unfold setEndVal setTimeVal
  dsimp only
  split <;> omega

theorem update_cons (e : Entry) (kv : String × PyVal)
    (rest : List (String × PyVal)) (now : Int) :
    Entry.update e (kv :: rest) now = Entry.update (updateStep now e kv) rest now := rfl

theorem update_frame (args : List (String × PyVal)) (e : Entry) (now : Int) :
    (e.update args now).start_time = e.start_time ∧
    (e.update args now).uuid = e.uuid ∧
    (e.update args now).oplog_id = e.oplog_id := by
  induction args generalizing e with
  | nil => exact ⟨rfl, rfl, rfl⟩
  | cons kv rest ih =>
    obtain ⟨h1, h2, h3, -⟩ := updateStep_frame now e kv
    obtain ⟨g1, g2, g3⟩ := ih (updateStep now e kv)
    rw [update_cons]
    exact ⟨g1.trans h1, g2.trans h2, g3.trans h3⟩

theorem updateStep_skip (now : Int) (e : Entry) (kv : String × PyVal)
    (h : ¬(kv.2 ≠ vNone ∧ kv.1 ∈ entryFieldNames ∧ kv.1 ∉ protectedFields)) :
    updateStep now e kv = e := by
  unfold updateStep
  rw [if_neg h]

/-- The predicate deciding which incoming pairs `Entry.update` acts on. -/
def updateActsOn (kv : String × PyVal) : Bool :=
  decide (kv.2 ≠ vNone ∧ kv.1 ∈ entryFieldNames ∧ kv.1 ∉ protectedFields)

theorem update_filter_eq (args : List (String × PyVal)) (e : Entry) (now : Int) :
    e.update args now = Entry.update e (args.filter updateActsOn) now := by
  induction args generalizing e with
  | nil => rfl
  | cons kv rest ih =>
    by_cases hc : (kv.2 ≠ vNone ∧ kv.1 ∈ entryFieldNames ∧ kv.1 ∉ protectedFields)
    · have hd : updateActsOn kv = true := by
        unfold updateActsOn
        exact decide_eq_true hc
      rw [update_cons, List.filter_cons, if_pos hd, update_cons]
      exact ih (updateStep now e kv)
    · have hd : ¬updateActsOn kv = true := by
        unfold updateActsOn
        simp only [decide_eq_true_eq]
        exact hc
      rw [update_cons, updateStep_skip now e kv hc, List.filter_cons, if_neg hd]
      exact ih e

theorem update_end_time_max (e : Entry) (t now : Int) :
    (Entry.update e [("end_time", vTime t)] now).end_time = max e.start_time t := by
  have hred : Entry.update e [("end_time", vTime t)] now
      = { e with end_time := setEndVal e.start_time (vTime t) now } := rfl
  rw [hred]
  show setEndVal e.start_time (vTime t) now = max e.start_time t
  unfold setEndVal setTimeVal
  dsimp only
  split <;> omega

/-- Claim C2: `Entry.update` never changes `start_time`, `uuid` or
`oplog_id`; incoming pairs whose value is `None`, whose name is not a
dataclass field, or whose name is protected are ignored (updating with a
dictionary equals updating with its filtered form, and is total — no
exception); and each other known, non-null field is overwritten through its
assignment semantics (plain fields take the value; `command`/`description`
strip; `end_time` is coerced against `start_time`). -/
theorem c2_update_protected_fields_frame :
    (∀ e args now,
      (Entry.update e args now).start_time = e.start_time ∧
      (Entry.update e args now).uuid = e.uuid ∧
      (Entry.update e args now).oplog_id = e.oplog_id) ∧
    (∀ e args now,
      Entry.update e args now = Entry.update e (args.filter updateActsOn) now) ∧
    (∀ (e : Entry) (now : Int) (s : String) (t : Int) (n : Int),
      (Entry.update e [("command", vStr s)] now).command = pyStrip s ∧
      (Entry.update e [("comments", vStr s)] now).comments = vStr s ∧
      (Entry.update e [("description", vStr s)] now).description = pyStrip s ∧
      (Entry.update e [("destination_host", vStr s)] now).destination_host = vStr s ∧
      (Entry.update e [("end_time", vTime t)] now).end_time = max e.start_time t ∧
      (Entry.update e [("gw_id", vInt n)] now).gw_id = vInt n ∧
      (Entry.update e [("operator", vStr s)] now).operator = vStr s ∧
      (Entry.update e [("output", vStr s)] now).output = vStr s ∧
      (Entry.update e [("source_host", vStr s)] now).source_host = vStr s ∧
      (Entry.update e [("tool", vStr s)] now).tool = vStr s ∧
      (Entry.update e [("user_context", vStr s)] now).user_context = vStr s) := by
  refine ⟨fun e args now => update_frame args e now,
    fun e args now => update_filter_eq args e now,
    fun e now s t n =>
      ⟨rfl, rfl, rfl, rfl, update_end_time_max e t now, rfl, rfl, rfl, rfl, rfl, rfl⟩⟩

/-- Claim C10: `Entry.update` mutates in place and the call evaluates to
`None`; consequently, whenever a cached JSON file matching the entry's
`oplog_id` and `uuid` exists, `cli.get_entry` returns `(None, False)` — the
caller gets `None` instead of the merged entry. -/
theorem c10_get_entry_cached_returns_none :
    (∀ e args now, (updateCall e args now).1 = none) ∧
    (∀ cfgAttrs args stored ctx,
      getEntry cfgAttrs args (some stored) ctx = (none, false)) :=
  ⟨fun _ _ _ => rfl, fun _ _ _ _ => rfl⟩

/-- Claim C9: an entry constructed without an explicit `start_time` (and
likewise `end_time`) stores the clock reading of its own construction. The
annotated class-level `datetime.utcnow()` defaults are shadowed by the
`start_time`/`end_time` property objects defined later in the class body, so
the dataclass passes the property object as the default and the setter's
`isinstance` check rejects it in favor of `datetime.utcnow()` at
construction time — hence two entries constructed at different clock
readings receive different `start_time`s. -/
theorem c9_default_times_are_construction_time :
    (∀ args ctx, args.lookup "start_time" = none →
      (entryOfDict args ctx).start_time = ctx.now) ∧
    (∀ args ctx, args.lookup "start_time" = none → args.lookup "end_time" = none →
      (entryOfDict args ctx).end_time = ctx.now) ∧
    (∀ cmd1 cmd2 host1 host2 (now1 now2 : Int), now1 ≠ now2 →
      (entryOfDict [("command", vStr cmd1)] ⟨now1, host1⟩).start_time
        ≠ (entryOfDict [("command", vStr cmd2)] ⟨now2, host2⟩).start_time) := by
  refine ⟨fun args ctx h => ?_, fun args ctx h1 h2 => ?_,
    fun cmd1 cmd2 host1 host2 now1 now2 hne heq => ?_⟩
  · unfold entryOfDict
    rw [h]
    rfl
  · unfold entryOfDict
    rw [h1, h2]
    show setEndVal ctx.now vOther ctx.now = ctx.now
    unfold setEndVal setTimeVal
    dsimp only
    split <;> rfl
  · exact hne heq

theorem c9_default_times_are_construction_time_witness :
    (entryOfDict [("command", vStr "ls")] ⟨100, "HOST (127.0.0.1)"⟩).start_time = 100 ∧
    (entryOfDict [("command", vStr "ls")] ⟨100, "HOST (127.0.0.1)"⟩).end_time = 100 ∧
    (entryOfDict [("command", vStr "a")] ⟨100, "HOST (127.0.0.1)"⟩).start_time
      ≠ (entryOfDict [("command", vStr "b")] ⟨907, "HOST (127.0.0.1)"⟩).start_time :=
  ⟨c9_default_times_are_construction_time.1 _ _ rfl,
   c9_default_times_are_construction_time.2.1 _ _ rfl rfl,
   c9_default_times_are_construction_time.2.2 "a" "b" _ _ 100 907 (by decide)⟩

/-- A fixed construction context for concrete evaluations (clock at tick 0). -/
def ctxA : Ctx := ⟨0, "HOST (127.0.0.1)"⟩

/-- A later deserialization context (clock at 200 ticks). -/
def ctxB : Ctx := ⟨200, "HOST (127.0.0.1)"⟩

/-- A concrete entry whose activity ran from tick 100 to tick 150. -/
def entryT100 : Entry :=
  entryOfDict [("command", vStr "ls"), ("start_time", vTime 100), ("end_time", vTime 150)] ctxA

/-- Claim C4 (code bug): the Local Archive round trip loses the timestamps.
`dict(entry)` renders `start_time`/`end_time` through the property getters as
formatted strings, and the setters invoked by `Entry.from_dict` discard any
non-`datetime` value in favor of `datetime.utcnow()`; so for every entry the
reloaded `start_time` and `end_time` equal the deserialization-time clock,
and concretely an entry started at tick 100 comes back started at tick 200. -/
theorem c4_roundtrip_resets_times :
    (∀ e ctx,
      (fromDict (cliSaveLogJson e) ctx).start_time = ctx.now ∧
      (fromDict (cliSaveLogJson e) ctx).end_time = ctx.now) ∧
    (entryT100.start_time = 100 ∧
      (fromDict (cliSaveLogJson entryT100) ctxB).start_time = 200) := by
  refine ⟨fun e ctx => ⟨rfl, ?_⟩, by decide⟩
  show setEndVal ctx.now (vStr (fmtTime e.end_time)) ctx.now = ctx.now
  unfold setEndVal setTimeVal
  dsimp only
  split <;> rfl

/-- Claim C3: every exception a remote delivery attempt raises (timeout,
transport/GraphQL error, or any other) is caught inside `cli.log_command`:
the call returns normally (`.ok`), the entry counts as not saved, the
`finally` clause persists it to the Local Archive, and at most one delivery
attempt is made (no retry). -/
theorem c3_remote_exceptions_contained (cfg : Config) (e : Entry)
    (newEntry : Bool) (exc : CliExc) :
    ∃ out, logCommand cfg e newEntry (.raise exc) = .ok out ∧
      out.saved = false ∧ out.savedLocally = true ∧ out.attempts ≤ 1 := by
  unfold logCommand
  dsimp only
  by_cases hc : (cfg.gw_url ≠ "" ∧ (cfg.gw_api_key_graphql ≠ "" ∨ cfg.gw_api_key_rest ≠ ""))
  · rw [if_pos hc, if_pos hc]
    cases exc <;>
      exact ⟨⟨false, true, false, 1, e⟩, by simp, rfl, rfl, Nat.le_refl 1⟩
  · rw [if_neg hc, if_neg hc]
    exact ⟨⟨false, true, false, 0, e⟩, by simp, rfl, rfl, Nat.zero_le 1⟩

/-- Claim C5: the processing chain folds over its units starting from the
original entry; a unit that declines (returns `None`) leaves the accumulated
result intact, and the next unit receives the accumulated output — so with
three units where unit 2 declines on its input while units 1 and 3 match,
the chain returns unit 3's enrichment of unit 1's output of the original
entry. -/
theorem c5_chain_fold_preserves_enrichment
    (u1 u2 u3 : Entry → Option Entry) (e0 e1 e3 : Entry)
    (h1 : u1 e0 = some e1) (h2 : u2 e1 = none) (h3 : u3 e1 = some e3) :
    processEntry [pureUnit u1, pureUnit u2, pureUnit u3] e0 = .ok (some e3) := by
  simp [processEntry, processEntryAux, pureUnit, h1, h2, h3]

/-- First chain unit of the C5 witness: enrich `output`. -/
def wUnit1 : Entry → Option Entry := fun e => some { e with output := vStr "one" }

/-- Third chain unit of the C5 witness: enrich `tool`. -/
def wUnit3 : Entry → Option Entry := fun e => some { e with tool := vStr "three" }

/-- The original entry of the C5 witness. -/
def wEntry0 : Entry := entryOfDict [("command", vStr "ls")] ctxA

theorem c5_chain_fold_preserves_enrichment_witness :
    processEntry [pureUnit wUnit1, pureUnit (fun _ => none), pureUnit wUnit3] wEntry0
      = .ok (some { wEntry0 with output := vStr "one", tool := vStr "three" }) :=
  c5_chain_fold_preserves_enrichment wUnit1 (fun _ => none) wUnit3 wEntry0
    { wEntry0 with output := vStr "one" }
    { wEntry0 with output := vStr "one", tool := vStr "three" }
    rfl rfl rfl

/-- The default configuration (the class-level defaults of `config.Config`:
desc token `"#desc"`, no-log token `"#nolog"`, logging enabled). -/
def dCfg : Config := {}

/-- An entry freshly constructed from a command, as `Entry.from_dict` does in
the CLI flow. -/
def mkCmdEntry (cmd : String) : Entry := entryOfDict [("command", vStr cmd)] ctxA

/-- The single-quote character as a string. -/
def sqStr : String := String.singleton (Char.ofNat 39)

/-- The command `echo 'a #nolog b'`: the no-log marker occurs only inside a quoted
phrase, so it is not a standalone shell token. -/
def quotedNologCmd : String := "echo " ++ sqStr ++ "a #nolog b" ++ sqStr

/-- Claim C6 counterexample: for the command `echo 'a #nolog b'` the marker
`#nolog` is not a standalone shell token (shlex yields
`["echo", "a #nolog b"]`), yet `cli.run` logs nothing, because its pre-check
is a plain substring test on the raw command — the quoted occurrence is
mistaken for the marker, contradicting the claim that such a command is
still logged. -/
theorem c6_quoted_marker_still_suppresses :
    shlexSplit quotedNologCmd = .ok ["echo", "a #nolog b"] ∧
    ¬ "#nolog" ∈ ["echo", "a #nolog b"] ∧
    runModel dCfg [] [("command", vStr quotedNologCmd)] none ctxA = .notLogged := by
  decide

/-- Claim C6 (amended): any occurrence of the no-log marker as a substring of
the raw command — standalone token or not, quoted or not — makes `cli.run`
log nothing (the pre-check is substring-based, not token-based); separately,
the `_nolog` chain unit raises the veto signal exactly when the marker is a
standalone shell token of the command it sees, and a chain in which a unit
raised the veto produces no record. -/
theorem c6_nolog_veto_amended :
    (∀ cfg cfgAttrs args cached ctx c,
      args.lookup "command" = some (vStr c) →
      strContainsSub c cfg.termsync_nolog_token = true →
      runModel cfg cfgAttrs args cached ctx = .notLogged) ∧
    (∀ cfg e toks, shlexSplit e.command = .ok toks →
      (nologProcess cfg e = .error .noLogExc ↔
        toks.contains cfg.termsync_nolog_token = true)) ∧
    (∀ units e, processEntryAux units e none = .error .noLogExc →
      processEntry units e = .ok none) := by
  refine ⟨fun cfg cfgAttrs args cached ctx c hcmd hsub => ?_,
    fun cfg e toks hsplit => ?_, fun units e h => ?_⟩
  · unfold runModel
    rw [hcmd]
    dsimp only [Option.getD_some]
    rw [if_pos hsub]
  · unfold nologProcess
    rw [hsplit]
    dsimp only
    by_cases hct : toks.contains cfg.termsync_nolog_token = true
    · rw [if_pos hct]
      simpa using hct
    · rw [if_neg hct]
      simpa using hct
  · unfold processEntry
    rw [h]

theorem c6_nolog_veto_amended_witness :
    runModel dCfg [] [("command", vStr "ls #nolog")] none ctxA = .notLogged ∧
    (nologProcess dCfg (mkCmdEntry "rm -rf tmp #nolog") = .error .noLogExc ↔
      (["rm", "-rf", "tmp", "#nolog"].contains "#nolog") = true) ∧
    processEntry [nologProcess dCfg] (mkCmdEntry "id #nolog") = .ok none :=
  ⟨c6_nolog_veto_amended.1 dCfg [] [("command", vStr "ls #nolog")] none ctxA
      "ls #nolog" rfl (by decide),
   c6_nolog_veto_amended.2.1 dCfg (mkCmdEntry "rm -rf tmp #nolog")
      ["rm", "-rf", "tmp", "#nolog"] (by decide),
   c6_nolog_veto_amended.2.2 [nologProcess dCfg] (mkCmdEntry "id #nolog") (by decide)⟩

/-- Claim C7 counterexample: for a command in which the delimiter token
appears twice, `"whoami #desc a #desc b"`, the extractor does not split on
the first occurrence — `entry.command.split(token)` yields three pieces and
the two-element unpacking raises `ValueError`. -/
theorem c7_double_token_raises :
    descriptionProcess dCfg (mkCmdEntry "whoami #desc a #desc b") = .error .valueErr := by
  decide

/-- Claim C7 (amended): the extractor splits on occurrences of the delimiter
token: when the token occurs exactly once in a non-empty command (the split
yields two pieces), it stores the trimmed left piece as `command` and the
trimmed right piece as `description`; a command without the token passes
through unchanged (the unit declines with `None`); but when the token occurs
more than once the two-element unpacking raises `ValueError` rather than
splitting on the first occurrence. -/
theorem c7_description_extractor_amended :
    (∀ cfg e l r,
      pySplit e.command cfg.termsync_desc_token = [l, r] → e.command ≠ "" →
      descriptionProcess cfg e
        = .ok (some { e with command := pyStrip l, description := pyStrip r })) ∧
    (∀ cfg e, strContainsSub e.command cfg.termsync_desc_token = false →
      descriptionProcess cfg e = .ok none) ∧
    (∀ cfg e x y z rest, e.command ≠ "" →
      pySplit e.command cfg.termsync_desc_token = x :: y :: z :: rest →
      descriptionProcess cfg e = .error .valueErr) := by
  refine ⟨fun cfg e l r hsplit hcmd => ?_, fun cfg e hfalse => ?_,
    fun cfg e x y z rest hcmd hsplit => ?_⟩
  · have hcontains : strContainsSub e.command cfg.termsync_desc_token = true := by
      unfold strContainsSub
      by_cases htok : cfg.termsync_desc_token = ""
      · rw [if_pos htok]
      · rw [if_neg htok, hsplit]
        simp
    unfold descriptionProcess
    rw [if_pos ⟨hcmd, hcontains⟩, hsplit]
  · unfold descriptionProcess
    rw [if_neg fun hand => by rw [hfalse] at hand; exact Bool.noConfusion hand.2]
  · have hcontains : strContainsSub e.command cfg.termsync_desc_token = true := by
      unfold strContainsSub
      by_cases htok : cfg.termsync_desc_token = ""
      · rw [if_pos htok]
      · rw [if_neg htok, hsplit]
        simp
    unfold descriptionProcess
    rw [if_pos ⟨hcmd, hcontains⟩, hsplit]

theorem c7_description_extractor_amended_witness :
    descriptionProcess dCfg (mkCmdEntry "whoami #desc check effective user")
      = .ok (some { mkCmdEntry "whoami #desc check effective user" with
          command := "whoami", description := "check effective user" }) :=
  c7_description_extractor_amended.1 dCfg
    (mkCmdEntry "whoami #desc check effective user")
    "whoami " " check effective user" (by decide) (by decide)

/-- The field names used by the server-side Local Archive files (the
remote-translated names of the twelve non-omitted fields). -/
def gwNames : List String :=
  ["command", "comments", "description", "dest_ip", "start_date", "end_date",
   "operator_name", "oplog_id", "output", "source_ip", "tool", "user_context"]

/-- Claim C8 counterexample: the Local Archive files do not contain "exactly
the non-null fields under internal names". For a plain entry, the CLI
archive file contains the null-valued `tool` field, and the server archive
file has no `start_time` key but a remote-translated `start_date` key. -/
theorem c8_archive_keys_mismatch :
    ("tool", vNone) ∈ cliSaveLogJson (mkCmdEntry "ls") ∧
    (apiSaveLogJson (mkCmdEntry "ls")).lookup "start_time" = none ∧
    (apiSaveLogJson (mkCmdEntry "ls")).lookup "start_date" = some (vStr (fmtTime 0)) := by
  decide

/-- Claim C8 (amended): the CLI archive writer (`json.dump(dict(entry))`)
emits every field — null-valued ones included — keyed by the internal field
names in declaration order; the server archive writer
(`json.dump(entry.gw_fields())`) emits only non-null fields, omits `gw_id`
and `uuid`, and keys them by the remote-translated names. -/
theorem c8_archive_contents_amended :
    (∀ e, (cliSaveLogJson e).map Prod.fst = entryFieldNames) ∧
    (∀ e p, p ∈ apiSaveLogJson e → p.2 ≠ vNone ∧ p.1 ∈ gwNames) := by
  constructor
  · intro e
    rfl
  · intro e p hp
    unfold apiSaveLogJson gwFields at hp
    rw [List.mem_filterMap] at hp
    obtain ⟨a, ha, hfa⟩ := hp
    by_cases hcond : (a.2 = vNone ∨ a.1 = "gw_id" ∨ a.1 = "uuid")
    · rw [if_pos hcond] at hfa
      exact Option.noConfusion hfa
    · rw [if_neg hcond] at hfa
      injection hfa with hfa
      subst hfa
      push_neg at hcond
      refine ⟨hcond.1, ?_⟩
      dsimp only
      have h2 : a.1 ∈ (entryDict e).map Prod.fst := List.mem_map_of_mem Prod.fst ha
      have hnames : a.1 ∈ entryFieldNames :=
        (show (entryDict e).map Prod.fst = entryFieldNames from rfl) ▸ h2
      have hmem : a.1 = "command" ∨ a.1 = "comments" ∨ a.1 = "description" ∨
          a.1 = "destination_host" ∨ a.1 = "start_time" ∨ a.1 = "end_time" ∨
          a.1 = "gw_id" ∨ a.1 = "operator" ∨ a.1 = "oplog_id" ∨ a.1 = "output" ∨
          a.1 = "source_host" ∨ a.1 = "tool" ∨ a.1 = "user_context" ∨
          a.1 = "uuid" := by
        simpa [entryFieldNames] using hnames
      rcases hmem with h | h | h | h | h | h | h | h | h | h | h | h | h | h <;>
        first
          | (rw [h]; decide)
          | exact absurd h hcond.2.1
          | exact absurd h hcond.2.2

theorem c8_archive_contents_amended_witness :
    (cliSaveLogJson (mkCmdEntry "ls")).map Prod.fst = entryFieldNames ∧
    (("command", vStr "ls").2 ≠ vNone ∧ ("command", vStr "ls").1 ∈ gwNames) :=
  ⟨c8_archive_contents_amended.1 (mkCmdEntry "ls"),
   c8_archive_contents_amended.2 (mkCmdEntry "ls") ("command", vStr "ls") (by decide)⟩
